import Mathlib

/-!
# catwalk: ingestion of the models.dev catalog

Shallow embedding of `internal/providers/providers.go`.

* A Go `map[string]V` that is ranged over is a `GoMap V`: the list of its
  entries in the order in which this run's `range` visits them.  Quantifying
  over all such lists covers every map and every iteration order of it.
* Go `int` and `int64` are `Int`.  The function only converts `int` to
  `int64` (value preserving) and compares; there is no arithmetic, so no
  wrap-around can occur.
* Go `float64` is `Float64`, the 64-bit IEEE-754 pattern of the value.  The
  function only copies such values.
* The three fallible library calls (`http.Get`, `io.ReadAll`,
  `json.Unmarshal`) are the fields of a `World`; `fmt.Println` appends a line
  to the `stdout` of the `Outcome`.
-/

/-- A ranged-over Go map: its entries in visiting order. -/
abbrev GoMap (V : Type) := List (String × V)

/-- A Go `float64`, kept as its IEEE-754 binary64 bit pattern. -/
structure Float64 where
  bits : Nat
deriving DecidableEq, Repr

/-- The `float64` zero value `+0.0`. -/
def Float64.zero : Float64 := ⟨0⟩

namespace catwalk

/-- Modelled from the spec: the struct `catwalk.Model` of package
`github.com/charmbracelet/catwalk/pkg/catwalk`, whose declaration is not in
this repository.  The fields are those of the spec's Canonical Model, under
the names the source's struct literal gives them. -/
structure Model where
  ID : String
  Name : String
  CostPer1MIn : Float64
  CostPer1MOut : Float64
  CostPer1MInCached : Float64
  CostPer1MOutCached : Float64
  ContextWindow : Int
  DefaultMaxTokens : Int
  CanReason : Bool
  HasReasoningEffort : Bool
  SupportsImages : Bool
deriving DecidableEq, Repr

/-- The Go zero value of `catwalk.Model` (`var largeModel catwalk.Model`). -/
def Model.zero : Model :=
  { ID := "", Name := "",
    CostPer1MIn := Float64.zero, CostPer1MOut := Float64.zero,
    CostPer1MInCached := Float64.zero, CostPer1MOutCached := Float64.zero,
    ContextWindow := 0, DefaultMaxTokens := 0,
    CanReason := false, HasReasoningEffort := false, SupportsImages := false }

/-- Modelled from the spec: the struct `catwalk.Provider` of package
`github.com/charmbracelet/catwalk/pkg/catwalk`, whose declaration is not in
this repository.  The fields are those of the spec's Canonical Provider, under
the names the source gives them (`Type_` is the field `Type`, a Lean
keyword); `InferenceProvider` and `Type` are string types. -/
structure Provider where
  Name : String
  ID : String
  APIEndpoint : String
  Type_ : String
  Models : List Model
  DefaultLargeModelID : String
  DefaultSmallModelID : String
deriving DecidableEq, Repr

end catwalk

namespace providers

/-- Go struct `Modalities`. -/
structure Modalities where
  Input : List String
  Output : List String
deriving DecidableEq, Repr

/-- Go struct `Cost`. -/
structure Cost where
  Input : Float64
  Output : Float64
  CacheRead : Float64
  CacheWrite : Float64
deriving DecidableEq, Repr

/-- Go struct `Limit`. -/
structure Limit where
  Context : Int
  Output : Int
deriving DecidableEq, Repr

/-- Go struct `Model`, the upstream schema of one model. -/
structure Model where
  ID : String
  Name : String
  Attachment : Bool
  Reasoning : Bool
  Temperature : Bool
  ToolCall : Bool
  Knowledge : String
  ReleaseDate : String
  LastUpdated : String
  Modalities : Modalities
  OpenWeights : Bool
  Cost : Cost
  Limit : Limit
deriving DecidableEq, Repr

/-- Go struct `Provider`, the upstream schema of one provider. -/
structure Provider where
  ID : String
  Env : List String
  Npm : String
  API : String
  Name : String
  Doc : String
  Models : GoMap Model
deriving DecidableEq, Repr

/-- The struct literal `cm := catwalk.Model{...}` of lines 96-108. -/
def convertModel (mod : Model) : catwalk.Model :=
  { ID := mod.ID,
    Name := mod.Name,
    CostPer1MIn := mod.Cost.Input,
    CostPer1MOut := mod.Cost.Output,
    CostPer1MInCached := mod.Cost.CacheRead,
    CostPer1MOutCached := mod.Cost.CacheWrite,
    ContextWindow := mod.Limit.Context,
    DefaultMaxTokens := mod.Limit.Output,
    CanReason := mod.Reasoning,
    HasReasoningEffort := false,
    SupportsImages := mod.Attachment }

/-- The variables the inner loop (lines 95-119) reads and writes:
`cp.Models`, `largeModel`, `smallModel`, `maxCtx`, `minCtx`. -/
structure LoopState where
  Models : List catwalk.Model
  largeModel : catwalk.Model
  smallModel : catwalk.Model
  maxCtx : Int
  minCtx : Int
deriving DecidableEq, Repr

/-- The state before the inner loop (lines 83-93): `cp.Models` is nil, both
models are zero values, `maxCtx := int64(0)`, `minCtx := int64(-1)`. -/
def LoopState.init : LoopState :=
  { Models := [], largeModel := catwalk.Model.zero, smallModel := catwalk.Model.zero,
    maxCtx := 0, minCtx := -1 }

/-- One pass of the body of `for _, mod := range prov.Models` (lines 96-118). -/
def loopBody (st : LoopState) (entry : String × Model) : LoopState :=
  let cm := convertModel entry.2
  let st1 : LoopState := { st with Models := st.Models ++ [cm] }
  let st2 : LoopState :=
    if cm.ContextWindow > st1.maxCtx then
      { st1 with maxCtx := cm.ContextWindow, largeModel := cm }
    else st1
  if st2.minCtx = -1 ∨ cm.ContextWindow < st2.minCtx then
    { st2 with minCtx := cm.ContextWindow, smallModel := cm }
  else st2

/-- The whole inner loop over the models of one provider. -/
def modelLoop (models : GoMap Model) : LoopState :=
  models.foldl loopBody LoopState.init

/-- One pass of the body of `for _, prov := range data` (lines 83-127): the
canonical provider that is appended to `providers`. -/
def convertProvider (prov : Provider) : catwalk.Provider :=
  let cp : catwalk.Provider :=
    { Name := prov.Name, ID := prov.ID, APIEndpoint := prov.API, Type_ := prov.ID,
      Models := [], DefaultLargeModelID := "", DefaultSmallModelID := "" }
  let st := modelLoop prov.Models
  let cp1 : catwalk.Provider := { cp with Models := st.Models }
  let cp2 : catwalk.Provider :=
    if st.largeModel.ID ≠ "" then { cp1 with DefaultLargeModelID := st.largeModel.ID } else cp1
  if st.smallModel.ID ≠ "" then { cp2 with DefaultSmallModelID := st.smallModel.ID } else cp2

/-- The normalizer: the loop `for _, prov := range data` of lines 82-129,
appending one canonical provider per entry to the nil slice `providers`. -/
def normalize (data : GoMap Provider) : List catwalk.Provider :=
  data.foldl (fun providers entry => providers ++ [convertProvider entry.2]) []

/-- The body of an HTTP response: what `io.ReadAll` makes of it. -/
structure Response where
  Body : Except String (List Nat)

/-- The outside world of one call: the result of `http.Get` on the fixed URL,
and `json.Unmarshal` into a `map[string]Provider` (with the order in which the
resulting map is later ranged over). -/
structure World where
  httpGet : Except String Response
  unmarshal : List Nat → Except String (GoMap Provider)

/-- What a call leaves behind: the lines printed and the slice returned. -/
structure Outcome where
  stdout : List String
  providers : List catwalk.Provider

/-- Go function `loadProvidersFromModelsDev` (lines 61-132). -/
def loadProvidersFromModelsDev (w : World) : Outcome :=
  let providers : List catwalk.Provider := []
  match w.httpGet with
  | .error err => { stdout := ["Error fetching JSON: " ++ err], providers := providers }
  | .ok resp =>
    match resp.Body with
    | .error err => { stdout := ["Error reading response: " ++ err], providers := providers }
    | .ok body =>
      match w.unmarshal body with
      | .error err => { stdout := ["Error unmarshaling JSON: " ++ err], providers := providers }
      | .ok data => { stdout := [], providers := normalize data }

/-- Go function `GetAll` (lines 56-58). -/
def GetAll (w : World) : Outcome :=
  loadProvidersFromModelsDev w

/-! ## Concrete inputs -/

/-- The upstream model decoded from a JSON object that gives only `id` and
`limit.context`: every field that is absent takes its zero value. -/
def Model.ofContext (id : String) (ctx : Int) : Model :=
  { ID := id, Name := "", Attachment := false, Reasoning := false, Temperature := false,
    ToolCall := false, Knowledge := "", ReleaseDate := "", LastUpdated := "",
    Modalities := { Input := [], Output := [] }, OpenWeights := false,
    Cost := { Input := Float64.zero, Output := Float64.zero,
              CacheRead := Float64.zero, CacheWrite := Float64.zero },
    Limit := { Context := ctx, Output := 0 } }

/-- The upstream provider with the given id and models, other fields zero. -/
def Provider.ofModels (id : String) (models : GoMap Model) : Provider :=
  { ID := id, Env := [], Npm := "", API := "", Name := "", Doc := "", Models := models }

/-- What the claims read off a canonical provider: both defaults and, per
model, its ID and context window. -/
def summary (cp : catwalk.Provider) : String × String × List (String × Int) :=
  (cp.DefaultLargeModelID, cp.DefaultSmallModelID,
    cp.Models.map (fun cm => (cm.ID, cm.ContextWindow)))

/-- One provider whose only model `m1` has no context limit recorded. -/
def zeroContextData : GoMap Provider :=
  [("p", Provider.ofModels "p" [("m1", Model.ofContext "m1" 0)])]

/-- A provider with models of contexts 8, 32 and 32. -/
def tieProvider : Provider :=
  Provider.ofModels "p"
    [("a", Model.ofContext "a" 8), ("b", Model.ofContext "b" 32),
     ("c", Model.ofContext "c" 32)]

/-- A document holding `tieProvider` only. -/
def tieData : GoMap Provider :=
  [("p", tieProvider)]

/-- One provider whose first visited model has context `-1`. -/
def sentinelData : GoMap Provider :=
  [("p", Provider.ofModels "p" [("a", Model.ofContext "a" (-1)), ("b", Model.ofContext "b" 5)])]

/-- One provider with the single model `solo` of context 0. -/
def soloZeroProvider : Provider :=
  Provider.ofModels "q" [("solo", Model.ofContext "solo" 0)]

/-- One provider with the single model `solo` of context 4096. -/
def soloProvider : Provider :=
  Provider.ofModels "q" [("solo", Model.ofContext "solo" 4096)]

/-- One provider without models. -/
def emptyProvider : Provider :=
  Provider.ofModels "none" []

/-- A provider whose two models have distinct keys and the same `id` field. -/
def sharedIdProvider : Provider :=
  Provider.ofModels "p" [("k1", Model.ofContext "x" 1), ("k2", Model.ofContext "x" 2)]

/-- A provider whose two models have distinct `id` fields. -/
def distinctIdProvider : Provider :=
  Provider.ofModels "p" [("k1", Model.ofContext "x" 1), ("k2", Model.ofContext "y" 2)]

/-- A world in which the body arrives (the one byte of an opening brace) and
decoding it fails. -/
def truncatedWorld : World :=
  { httpGet := .ok { Body := .ok [123] },
    unmarshal := fun _ => .error "unexpected end of JSON input" }

/-- The binary64 value 1.5. -/
def Float64.oneAndHalf : Float64 := ⟨0x3FF8000000000000⟩

/-- The binary64 value 2.0. -/
def Float64.two : Float64 := ⟨0x4000000000000000⟩

/-- The binary64 value nearest to 0.1. -/
def Float64.tenth : Float64 := ⟨0x3FB999999999999A⟩

/-- The binary64 value nearest to 0.2. -/
def Float64.fifth : Float64 := ⟨0x3FC999999999999A⟩

/-- An upstream model with cost input 1.5, output 2.0, cache_read 0.1 and
cache_write 0.2. -/
def pricedModel : Model :=
  { Model.ofContext "priced" 1000 with
    Cost := { Input := Float64.oneAndHalf, Output := Float64.two,
              CacheRead := Float64.tenth, CacheWrite := Float64.fifth } }

/-- A provider holding `pricedModel` after one other model. -/
def pricedProvider : Provider :=
  Provider.ofModels "p" [("free", Model.ofContext "free" 10), ("priced", pricedModel)]

/-- A model entry of context 100. -/
def m100 : String × Model := ("m100", Model.ofContext "m100" 100)

/-- A model entry of context 500. -/
def m500 : String × Model := ("m500", Model.ofContext "m500" 500)

/-- A model entry of context 50. -/
def m50 : String × Model := ("m50", Model.ofContext "m50" 50)

/-- The six orders in which a map holding `m100`, `m500` and `m50` can be
visited. -/
def sixOrders : List (GoMap Model) :=
  [[m100, m500, m50], [m100, m50, m500], [m500, m100, m50],
   [m500, m50, m100], [m50, m100, m500], [m50, m500, m100]]

/-- An upstream model with every capability set and both limits given. -/
def richModel : Model :=
  { ID := "acme-1", Name := "Acme One", Attachment := true, Reasoning := true,
    Temperature := true, ToolCall := true, Knowledge := "2024-06",
    ReleaseDate := "2024-09-01", LastUpdated := "2024-10-01",
    Modalities := { Input := ["text", "image"], Output := ["text"] }, OpenWeights := false,
    Cost := { Input := Float64.oneAndHalf, Output := Float64.two,
              CacheRead := Float64.tenth, CacheWrite := Float64.fifth },
    Limit := { Context := 200000, Output := 8192 } }

/-- An upstream provider with every field given, whose models sit under keys
that differ from their `id` fields. -/
def namedProvider : Provider :=
  { ID := "acme", Env := ["ACME_API_KEY"], Npm := "@acme/sdk",
    API := "https://api.acme.test/v1", Name := "Acme", Doc := "https://acme.test/docs",
    Models := [("first", richModel), ("second", Model.ofContext "acme-mini" 4000)] }

/-- The provider `namedProvider` with its models under other keys. -/
def rekeyedProvider : Provider :=
  { namedProvider with
    Models := [("acme-1", richModel), ("acme-mini", Model.ofContext "acme-mini" 4000)] }

/-- A provider with the model mapping's keys blanked. -/
def eraseModelKeys (prov : Provider) : Provider :=
  { prov with Models := prov.Models.map (fun e => ("", e.2)) }

/-- A decoded document with every key blanked, those of the providers and
those of their models: what is left is the values in visiting order. -/
def eraseKeys (data : GoMap Provider) : GoMap Provider :=
  data.map (fun e => ("", eraseModelKeys e.2))

/-- A provider with models of contexts 16, 4 and 4. -/
def smallTieProvider : Provider :=
  Provider.ofModels "s"
    [("a", Model.ofContext "a" 16), ("b", Model.ofContext "b" 4),
     ("c", Model.ofContext "c" 4)]

/-- A provider whose two models both have context 0. -/
def allZeroProvider : Provider :=
  Provider.ofModels "z" [("a", Model.ofContext "a" 0), ("b", Model.ofContext "b" 0)]

end providers

/-! ## The inner loop, field by field -/

namespace providers

theorem modelLoop_nil : modelLoop [] = LoopState.init := rfl

theorem modelLoop_concat (ms : GoMap Model) (e : String × Model) :
    modelLoop (ms ++ [e]) = loopBody (modelLoop ms) e := by
  simp [modelLoop, List.foldl_append]

theorem loopBody_Models (st : LoopState) (e : String × Model) :
    (loopBody st e).Models = st.Models ++ [convertModel e.2] := by
  unfold loopBody
  simp only []
  split_ifs <;> rfl

theorem loopBody_maxCtx (st : LoopState) (e : String × Model) :
    (loopBody st e).maxCtx
      = if e.2.Limit.Context > st.maxCtx then e.2.Limit.Context else st.maxCtx := by
  unfold loopBody convertModel
  simp only []
  split_ifs <;> rfl

theorem loopBody_largeModel (st : LoopState) (e : String × Model) :
    (loopBody st e).largeModel
      = if e.2.Limit.Context > st.maxCtx then convertModel e.2 else st.largeModel := by
  unfold loopBody convertModel
  simp only []
  split_ifs <;> rfl

theorem loopBody_minCtx (st : LoopState) (e : String × Model) :
    (loopBody st e).minCtx
      = if st.minCtx = -1 ∨ e.2.Limit.Context < st.minCtx then e.2.Limit.Context
        else st.minCtx := by
  unfold loopBody convertModel
  simp only []
  split_ifs <;> rfl

theorem loopBody_smallModel (st : LoopState) (e : String × Model) :
    (loopBody st e).smallModel
      = if st.minCtx = -1 ∨ e.2.Limit.Context < st.minCtx then convertModel e.2
        else st.smallModel := by
  unfold loopBody convertModel
  simp only []
  split_ifs <;> rfl

/-- The loop appends the converted models in visiting order. -/
theorem modelLoop_Models (ms : GoMap Model) :
    (modelLoop ms).Models = ms.map (fun e => convertModel e.2) := by
  induction ms using List.reverseRecOn with
  | nil => rfl
  | append_singleton ms e ih =>
    rw [modelLoop_concat, loopBody_Models, ih]
    simp

end providers

/-! ## What the running maximum and minimum hold after the loop -/

namespace providers

/-- The running maximum bounds every context seen, and `largeModel` is either
still the zero value (with `maxCtx = 0`) or a visited model whose positive
context is `maxCtx`. -/
theorem modelLoop_large (ms : GoMap Model) :
    (∀ e ∈ ms, e.2.Limit.Context ≤ (modelLoop ms).maxCtx) ∧
    (((modelLoop ms).maxCtx = 0 ∧ (modelLoop ms).largeModel = catwalk.Model.zero) ∨
     (0 < (modelLoop ms).maxCtx ∧
       ∃ e ∈ ms, (modelLoop ms).largeModel = convertModel e.2 ∧
         e.2.Limit.Context = (modelLoop ms).maxCtx)) := by
  induction ms using List.reverseRecOn with
  | nil => exact ⟨by simp, Or.inl ⟨rfl, rfl⟩⟩
  | append_singleton ms e ih =>
    obtain ⟨hb, hm⟩ := ih
    rw [modelLoop_concat, loopBody_maxCtx, loopBody_largeModel]
    by_cases hgt : e.2.Limit.Context > (modelLoop ms).maxCtx
    · simp only [hgt, if_true]
      refine ⟨?_, Or.inr ⟨?_, e, by simp, rfl, rfl⟩⟩
      · intro x hx
        rcases List.mem_append.mp hx with hx | hx
        · exact le_of_lt (lt_of_le_of_lt (hb x hx) hgt)
        · simp at hx; subst hx; exact le_refl _
      · rcases hm with ⟨h0, _⟩ | ⟨hpos, _⟩
        · omega
        · omega
    · simp only [hgt, if_false]
      refine ⟨?_, ?_⟩
      · intro x hx
        rcases List.mem_append.mp hx with hx | hx
        · exact hb x hx
        · simp at hx; subst hx; omega
      · rcases hm with h | ⟨hpos, x, hx, hl, hc⟩
        · exact Or.inl h
        · exact Or.inr ⟨hpos, x, by simp [hx], hl, hc⟩

/-- After the loop `smallModel` is the zero value exactly when no model was
visited; otherwise it is a visited model and `minCtx` is its context. -/
theorem modelLoop_small (ms : GoMap Model) :
    (ms = [] ∧ (modelLoop ms).smallModel = catwalk.Model.zero ∧ (modelLoop ms).minCtx = -1) ∨
    (∃ e ∈ ms, (modelLoop ms).smallModel = convertModel e.2 ∧
      (modelLoop ms).minCtx = e.2.Limit.Context) := by
  induction ms using List.reverseRecOn with
  | nil => exact Or.inl ⟨rfl, rfl, rfl⟩
  | append_singleton ms e ih =>
    right
    rw [modelLoop_concat, loopBody_minCtx, loopBody_smallModel]
    by_cases hc : (modelLoop ms).minCtx = -1 ∨ e.2.Limit.Context < (modelLoop ms).minCtx
    · simp only [hc, if_true]
      exact ⟨e, by simp, rfl, rfl⟩
    · simp only [hc, if_false]
      rcases ih with ⟨_, _, h1⟩ | ⟨x, hx, hs, hm⟩
      · exact absurd (Or.inl h1) hc
      · exact ⟨x, by simp [hx], hs, hm⟩

/-- When no context equals the sentinel `-1`, the running minimum bounds every
context seen. -/
theorem modelLoop_minCtx_le (ms : GoMap Model)
    (hne : ∀ e ∈ ms, e.2.Limit.Context ≠ -1) :
    ∀ e ∈ ms, (modelLoop ms).minCtx ≤ e.2.Limit.Context := by
  induction ms using List.reverseRecOn with
  | nil => simp
  | append_singleton ms e ih =>
    have hne1 : ∀ x ∈ ms, x.2.Limit.Context ≠ -1 := fun x hx => hne x (by simp [hx])
    have ih1 := ih hne1
    rw [modelLoop_concat, loopBody_minCtx]
    intro x hx
    by_cases hc : (modelLoop ms).minCtx = -1 ∨ e.2.Limit.Context < (modelLoop ms).minCtx
    · simp only [hc, if_true]
      rcases List.mem_append.mp hx with hx | hx
      · have hle := ih1 x hx
        rcases hc with h1 | hlt
        · rcases modelLoop_small ms with ⟨hnil, _, _⟩ | ⟨y, hy, _, hm⟩
          · subst hnil; simp at hx
          · exact absurd (hm ▸ h1) (hne1 y hy)
        · omega
      · simp at hx; subst hx; exact le_refl _
    · simp only [hc, if_false]
      rcases List.mem_append.mp hx with hx | hx
      · exact ih1 x hx
      · simp at hx; subst hx
        push_neg at hc
        exact hc.2

end providers

/-! ## One provider, and the outer loop -/

namespace providers

theorem convertProvider_Models (prov : Provider) :
    (convertProvider prov).Models = prov.Models.map (fun e => convertModel e.2) := by
  unfold convertProvider
  simp only []
  split_ifs <;> simp [modelLoop_Models]

/-- The guard `largeModel.ID != ""` changes nothing: an empty ID is assigned
or left in place alike. -/
theorem convertProvider_large (prov : Provider) :
    (convertProvider prov).DefaultLargeModelID = (modelLoop prov.Models).largeModel.ID := by
  unfold convertProvider
  simp only []
  split_ifs with h1 h2 h2 <;> simp_all

theorem convertProvider_small (prov : Provider) :
    (convertProvider prov).DefaultSmallModelID = (modelLoop prov.Models).smallModel.ID := by
  unfold convertProvider
  simp only []
  split_ifs with h1 h2 h2 <;> simp_all

theorem normalize_eq_map (data : GoMap Provider) :
    normalize data = data.map (fun e => convertProvider e.2) := by
  unfold normalize
  induction data using List.reverseRecOn with
  | nil => rfl
  | append_singleton data e ih => simp [List.foldl_append, ih]

theorem normalize_getElem? (data : GoMap Provider) (i : Nat) :
    (normalize data)[i]? = (data[i]?).map (fun e => convertProvider e.2) := by
  rw [normalize_eq_map, List.getElem?_map]

theorem mem_normalize (data : GoMap Provider) (cp : catwalk.Provider) :
    cp ∈ normalize data ↔ ∃ e ∈ data, cp = convertProvider e.2 := by
  rw [normalize_eq_map, List.mem_map]
  constructor
  · rintro ⟨e, he, rfl⟩; exact ⟨e, he, rfl⟩
  · rintro ⟨e, he, rfl⟩; exact ⟨e, he, rfl⟩

/-- A successful fetch, read and decode returns the normalizer's output. -/
theorem loadProvidersFromModelsDev_ok (w : World) (resp : Response) (body : List Nat)
    (data : GoMap Provider) (hget : w.httpGet = .ok resp) (hread : resp.Body = .ok body)
    (hdec : w.unmarshal body = .ok data) :
    (loadProvidersFromModelsDev w).providers = normalize data := by
  simp [loadProvidersFromModelsDev, hget, hread, hdec]

end providers

/-! ## The derived defaults of one provider -/

namespace providers

theorem mem_convertProvider_Models (prov : Provider) (cm : catwalk.Model) :
    cm ∈ (convertProvider prov).Models ↔ ∃ e ∈ prov.Models, cm = convertModel e.2 := by
  rw [convertProvider_Models, List.mem_map]
  constructor
  · rintro ⟨e, he, rfl⟩; exact ⟨e, he, rfl⟩
  · rintro ⟨e, he, rfl⟩; exact ⟨e, he, rfl⟩

/-- With some positive context among the models, the large default is the ID
of a model of maximal context. -/
theorem convertProvider_large_max (prov : Provider)
    (hpos : ∃ e ∈ prov.Models, 0 < e.2.Limit.Context) :
    ∃ e ∈ prov.Models, (convertProvider prov).DefaultLargeModelID = e.2.ID ∧
      ∀ x ∈ prov.Models, x.2.Limit.Context ≤ e.2.Limit.Context := by
  obtain ⟨hb, hm⟩ := modelLoop_large prov.Models
  rcases hm with ⟨h0, _⟩ | ⟨_, e, he, hl, hc⟩
  · obtain ⟨x, hx, hxpos⟩ := hpos
    have := hb x hx
    omega
  · refine ⟨e, he, ?_, ?_⟩
    · rw [convertProvider_large, hl]; rfl
    · intro x hx; rw [hc]; exact hb x hx

/-- With at least one model and no context equal to `-1`, the small default is
the ID of a model of minimal context. -/
theorem convertProvider_small_min (prov : Provider) (hne : prov.Models ≠ [])
    (hs : ∀ e ∈ prov.Models, e.2.Limit.Context ≠ -1) :
    ∃ e ∈ prov.Models, (convertProvider prov).DefaultSmallModelID = e.2.ID ∧
      ∀ x ∈ prov.Models, e.2.Limit.Context ≤ x.2.Limit.Context := by
  rcases modelLoop_small prov.Models with ⟨hnil, _, _⟩ | ⟨e, he, hl, hc⟩
  · exact absurd hnil hne
  · refine ⟨e, he, ?_, ?_⟩
    · rw [convertProvider_small, hl]; rfl
    · intro x hx; rw [← hc]; exact modelLoop_minCtx_le prov.Models hs x hx

end providers

/-! ## Claims C1 and C2: the defaults as extremal models -/

namespace providers

/-- C1, where the code falls short of it: on `zeroContextData` the only
provider has the one model `m1` (context 0).  The running minimum takes `m1`,
so the small default is `m1`; the running maximum, seeded with 0 and replaced
only on a strictly greater context, does not, so the large default is empty
and no model of maximal context carries it as its ID. -/
theorem default_large_not_maximal_at_zero_context :
    (normalize zeroContextData).map summary = [("", "m1", [("m1", 0)])] ∧
    ¬ ∀ cp ∈ normalize zeroContextData, cp.Models ≠ [] →
        ∃ cm ∈ cp.Models, cp.DefaultLargeModelID = cm.ID ∧
          ∀ x ∈ cp.Models, x.ContextWindow ≤ cm.ContextWindow := by
  decide

/-- The inputs on which the large default is extremal: for every canonical
provider the normalizer produces, in any visiting order, that has a model of
context window greater than zero, `DefaultLargeModelID` is the ID of some
model of that provider whose context window is at least that of every model of
the provider. -/
theorem default_large_is_maximal (data : GoMap Provider) (cp : catwalk.Provider)
    (hcp : cp ∈ normalize data) (hpos : ∃ cm ∈ cp.Models, 0 < cm.ContextWindow) :
    ∃ cm ∈ cp.Models, cp.DefaultLargeModelID = cm.ID ∧
      ∀ x ∈ cp.Models, x.ContextWindow ≤ cm.ContextWindow := by
  obtain ⟨entry, _, rfl⟩ := (mem_normalize data cp).mp hcp
  obtain ⟨cm, hcm, hcmpos⟩ := hpos
  obtain ⟨e0, he0, rfl⟩ := (mem_convertProvider_Models entry.2 cm).mp hcm
  obtain ⟨e, he, hid, hmax⟩ := convertProvider_large_max entry.2 ⟨e0, he0, hcmpos⟩
  refine ⟨convertModel e.2, (mem_convertProvider_Models _ _).mpr ⟨e, he, rfl⟩, hid, ?_⟩
  intro x hx
  obtain ⟨ex, hex, rfl⟩ := (mem_convertProvider_Models entry.2 x).mp hx
  exact hmax ex hex

/-- At `tieData`, contexts 8, 32, 32 give a large default that is the ID of a
model of context 32. -/
theorem default_large_is_maximal_witness :
    convertProvider tieProvider ∈ normalize tieData ∧
    ∃ cm ∈ (convertProvider tieProvider).Models,
      (convertProvider tieProvider).DefaultLargeModelID = cm.ID ∧
      ∀ x ∈ (convertProvider tieProvider).Models, x.ContextWindow ≤ cm.ContextWindow :=
  ⟨by decide, default_large_is_maximal tieData _ (by decide) (by decide)⟩

/-- C2, as stated, fails: on `sentinelData` the first visited model `a` has
context `-1`, which is the value of the unset running minimum, so the next
model `b` (context 5) replaces it and the small default is `b`, not a model of
minimal context. -/
theorem default_small_not_minimal_at_sentinel :
    (normalize sentinelData).map summary = [("b", "b", [("a", -1), ("b", 5)])] ∧
    ¬ ∀ cp ∈ normalize sentinelData, cp.Models ≠ [] →
        ∃ cm ∈ cp.Models, cp.DefaultSmallModelID = cm.ID ∧
          ∀ x ∈ cp.Models, cm.ContextWindow ≤ x.ContextWindow := by
  decide

/-- C2 (amended): for every canonical provider the normalizer produces, in any
visiting order, that has at least one model and no model of context window
`-1` (so whenever all context windows are non-negative),
`DefaultSmallModelID` is the ID of some model of that provider whose context
window is at most that of every model of the provider. -/
theorem default_small_is_minimal (data : GoMap Provider) (cp : catwalk.Provider)
    (hcp : cp ∈ normalize data) (hne : cp.Models ≠ [])
    (hs : ∀ cm ∈ cp.Models, cm.ContextWindow ≠ -1) :
    ∃ cm ∈ cp.Models, cp.DefaultSmallModelID = cm.ID ∧
      ∀ x ∈ cp.Models, cm.ContextWindow ≤ x.ContextWindow := by
  obtain ⟨entry, _, rfl⟩ := (mem_normalize data cp).mp hcp
  have hne1 : entry.2.Models ≠ [] := by
    intro h
    apply hne
    rw [convertProvider_Models, h]
    rfl
  have hs1 : ∀ e ∈ entry.2.Models, e.2.Limit.Context ≠ -1 := fun e he =>
    hs (convertModel e.2) ((mem_convertProvider_Models _ _).mpr ⟨e, he, rfl⟩)
  obtain ⟨e, he, hid, hmin⟩ := convertProvider_small_min entry.2 hne1 hs1
  refine ⟨convertModel e.2, (mem_convertProvider_Models _ _).mpr ⟨e, he, rfl⟩, hid, ?_⟩
  intro x hx
  obtain ⟨ex, hex, rfl⟩ := (mem_convertProvider_Models entry.2 x).mp hx
  exact hmin ex hex

/-- C2 (amended), at `tieData`: contexts 8, 32, 32, none of them `-1`, give a
small default that is the ID of a model of minimal context. -/
theorem default_small_is_minimal_witness :
    convertProvider tieProvider ∈ normalize tieData ∧
    (convertProvider tieProvider).Models ≠ [] ∧
    (∀ cm ∈ (convertProvider tieProvider).Models, cm.ContextWindow ≠ -1) ∧
    ∃ cm ∈ (convertProvider tieProvider).Models,
      (convertProvider tieProvider).DefaultSmallModelID = cm.ID ∧
      ∀ x ∈ (convertProvider tieProvider).Models, cm.ContextWindow ≤ x.ContextWindow :=
  ⟨by decide, by decide, by decide,
    default_small_is_minimal tieData _ (by decide) (by decide) (by decide)⟩

end providers

/-! ## Claims C3, C4 and C5: one model, no model, and where the defaults point -/

namespace providers

/-- C3, where the code falls short of it: the provider `soloZeroProvider` has
exactly one model, `solo`, of context 0.  The running minimum takes it, so the
small default is `solo`; the running maximum, seeded with 0 and replaced only
on a strictly greater context, does not, so the large default is empty. -/
theorem single_zero_context_model_is_not_large :
    (normalize [("q", soloZeroProvider)]).map summary = [("", "solo", [("solo", 0)])] ∧
    ¬ ∀ cp ∈ normalize [("q", soloZeroProvider)],
        cp.DefaultLargeModelID = "solo" ∧ cp.DefaultSmallModelID = "solo" := by
  decide

/-- What a provider with exactly one model does get: the canonical provider
built from it has `DefaultSmallModelID` equal to that model's ID whatever its
context window, and `DefaultLargeModelID` equal to that model's ID when its
context window is greater than zero. -/
theorem single_model_defaults (data : GoMap Provider) (i : Nat) (entry : String × Provider)
    (key : String) (mod : Model) (hi : data[i]? = some entry)
    (hone : entry.2.Models = [(key, mod)]) :
    ∃ cp, (normalize data)[i]? = some cp ∧
      cp.DefaultSmallModelID = mod.ID ∧
      (0 < mod.Limit.Context → cp.DefaultLargeModelID = mod.ID) := by
  refine ⟨convertProvider entry.2, by rw [normalize_getElem?, hi]; rfl, ?_, ?_⟩
  · rw [convertProvider_small, hone]
    have h : modelLoop [(key, mod)] = loopBody LoopState.init (key, mod) := rfl
    rw [h, loopBody_smallModel]
    simp [LoopState.init, convertModel]
  · intro hpos
    rw [convertProvider_large, hone]
    have h : modelLoop [(key, mod)] = loopBody LoopState.init (key, mod) := rfl
    rw [h, loopBody_largeModel]
    simp [LoopState.init, convertModel, hpos]

/-- At `soloProvider`, the one model `solo` of context 4096 is both
defaults. -/
theorem single_model_defaults_witness :
    ∃ cp, (normalize [("q", soloProvider)])[0]? = some cp ∧
      cp.DefaultSmallModelID = "solo" ∧ cp.DefaultLargeModelID = "solo" :=
  let ⟨cp, hcp, hsmall, hlarge⟩ :=
    single_model_defaults [("q", soloProvider)] 0 ("q", soloProvider) "solo"
      (Model.ofContext "solo" 4096) rfl rfl
  ⟨cp, hcp, hsmall, hlarge (by decide)⟩

/-- C4: a provider whose model mapping is empty is still emitted, at its own
position, with an empty `Models` sequence and both defaults empty. -/
theorem empty_provider_is_emitted (data : GoMap Provider) (i : Nat)
    (entry : String × Provider) (hi : data[i]? = some entry) (hempty : entry.2.Models = []) :
    ∃ cp, (normalize data)[i]? = some cp ∧
      cp.Models = [] ∧ cp.DefaultLargeModelID = "" ∧ cp.DefaultSmallModelID = "" := by
  refine ⟨convertProvider entry.2, by rw [normalize_getElem?, hi]; rfl, ?_, ?_, ?_⟩
  · rw [convertProvider_Models, hempty]; rfl
  · rw [convertProvider_large, hempty]; rfl
  · rw [convertProvider_small, hempty]; rfl

/-- C4, at a document whose second provider has no models. -/
theorem empty_provider_is_emitted_witness :
    ∃ cp, (normalize [("p", tieProvider), ("none", emptyProvider)])[1]? = some cp ∧
      cp.Models = [] ∧ cp.DefaultLargeModelID = "" ∧ cp.DefaultSmallModelID = "" :=
  empty_provider_is_emitted [("p", tieProvider), ("none", emptyProvider)] 1
    ("none", emptyProvider) rfl rfl

/-- C5: in every canonical provider the normalizer produces, a non-empty
`DefaultLargeModelID` is the ID of a model in its `Models`, and so is a
non-empty `DefaultSmallModelID`. -/
theorem defaults_reference_own_models (data : GoMap Provider) (cp : catwalk.Provider)
    (hcp : cp ∈ normalize data) :
    (cp.DefaultLargeModelID ≠ "" → ∃ cm ∈ cp.Models, cm.ID = cp.DefaultLargeModelID) ∧
    (cp.DefaultSmallModelID ≠ "" → ∃ cm ∈ cp.Models, cm.ID = cp.DefaultSmallModelID) := by
  obtain ⟨entry, _, rfl⟩ := (mem_normalize data cp).mp hcp
  constructor
  · intro hne
    rw [convertProvider_large] at hne ⊢
    rcases (modelLoop_large entry.2.Models).2 with ⟨_, hz⟩ | ⟨_, e, he, hl, _⟩
    · rw [hz] at hne; exact absurd rfl hne
    · exact ⟨convertModel e.2, (mem_convertProvider_Models _ _).mpr ⟨e, he, rfl⟩, by rw [hl]⟩
  · intro hne
    rw [convertProvider_small] at hne ⊢
    rcases modelLoop_small entry.2.Models with ⟨_, hz, _⟩ | ⟨e, he, hl, _⟩
    · rw [hz] at hne; exact absurd rfl hne
    · exact ⟨convertModel e.2, (mem_convertProvider_Models _ _).mpr ⟨e, he, rfl⟩, by rw [hl]⟩

/-- C5, at `tieData`. -/
theorem defaults_reference_own_models_witness :
    convertProvider tieProvider ∈ normalize tieData ∧
    ((convertProvider tieProvider).DefaultLargeModelID ≠ "" →
      ∃ cm ∈ (convertProvider tieProvider).Models,
        cm.ID = (convertProvider tieProvider).DefaultLargeModelID) ∧
    ((convertProvider tieProvider).DefaultSmallModelID ≠ "" →
      ∃ cm ∈ (convertProvider tieProvider).Models,
        cm.ID = (convertProvider tieProvider).DefaultSmallModelID) :=
  ⟨by decide, defaults_reference_own_models tieData _ (by decide)⟩

end providers

/-! ## Claims C6 to C8: distinct IDs, failures, and the number of providers -/

namespace providers

/-- C6, as stated, fails: the two models of `sharedIdProvider` sit under the
distinct keys `k1` and `k2` and both have the `id` field `x`, so the canonical
provider lists the ID `x` twice. -/
theorem unique_keys_do_not_give_unique_ids :
    (sharedIdProvider.Models.map Prod.fst).Nodup ∧
    (normalize [("p", sharedIdProvider)]).map summary = [("x", "x", [("x", 1), ("x", 2)])] ∧
    ¬ ∀ cp ∈ normalize [("p", sharedIdProvider)],
        (cp.Models.map (fun cm => cm.ID)).Nodup := by
  decide

/-- C6 (amended): when the `id` fields of a provider's models are pairwise
distinct, the IDs of the canonical models in the resulting canonical
provider's `Models` are pairwise distinct. -/
theorem distinct_ids_are_kept (data : GoMap Provider) (i : Nat) (entry : String × Provider)
    (hi : data[i]? = some entry)
    (hids : (entry.2.Models.map (fun e => e.2.ID)).Nodup) :
    ∃ cp, (normalize data)[i]? = some cp ∧ (cp.Models.map (fun cm => cm.ID)).Nodup := by
  refine ⟨convertProvider entry.2, by rw [normalize_getElem?, hi]; rfl, ?_⟩
  rw [convertProvider_Models, List.map_map]
  exact hids

/-- C6 (amended), at `distinctIdProvider`. -/
theorem distinct_ids_are_kept_witness :
    (distinctIdProvider.Models.map (fun e => e.2.ID)).Nodup ∧
    ∃ cp, (normalize [("p", distinctIdProvider)])[0]? = some cp ∧
      (cp.Models.map (fun cm => cm.ID)).Nodup :=
  ⟨by decide,
    distinct_ids_are_kept [("p", distinctIdProvider)] 0 ("p", distinctIdProvider) rfl
      (by decide)⟩

/-- C7: when the fetch fails, or the body cannot be read, or the body does not
decode, `loadProvidersFromModelsDev` and `GetAll` return the empty sequence. -/
theorem failure_returns_no_providers (w : World)
    (hfail : (∃ err, w.httpGet = .error err) ∨
      (∃ resp err, w.httpGet = .ok resp ∧ resp.Body = .error err) ∨
      (∃ resp body err, w.httpGet = .ok resp ∧ resp.Body = .ok body ∧
        w.unmarshal body = .error err)) :
    (loadProvidersFromModelsDev w).providers = [] ∧ (GetAll w).providers = [] := by
  have h : (loadProvidersFromModelsDev w).providers = [] := by
    rcases hfail with ⟨err, h1⟩ | ⟨resp, err, h1, h2⟩ | ⟨resp, body, err, h1, h2, h3⟩
    · simp [loadProvidersFromModelsDev, h1]
    · simp [loadProvidersFromModelsDev, h1, h2]
    · simp [loadProvidersFromModelsDev, h1, h2, h3]
  exact ⟨h, h⟩

/-- C7, at `truncatedWorld`, where decoding fails. -/
theorem failure_returns_no_providers_witness :
    (loadProvidersFromModelsDev truncatedWorld).providers = [] ∧
    (GetAll truncatedWorld).providers = [] :=
  failure_returns_no_providers truncatedWorld
    (Or.inr (Or.inr ⟨{ Body := .ok [123] }, [123], "unexpected end of JSON input",
      rfl, rfl, rfl⟩))

/-- C8: for a decoded mapping (keys unique), the normalizer returns as many
canonical providers as the mapping has keys. -/
theorem one_provider_per_key (data : GoMap Provider)
    (hkeys : (data.map Prod.fst).Nodup) :
    (normalize data).length = (data.map Prod.fst).toFinset.card := by
  rw [List.toFinset_card_of_nodup hkeys, normalize_eq_map]
  simp

/-- C8, at a document of two providers. -/
theorem one_provider_per_key_witness :
    (normalize [("p", tieProvider), ("none", emptyProvider)]).length
      = (([("p", tieProvider), ("none", emptyProvider)] : GoMap Provider).map
          Prod.fst).toFinset.card :=
  one_provider_per_key [("p", tieProvider), ("none", emptyProvider)] (by decide)

end providers

/-! ## Claims C9 and C10: cost fields, and the contexts 100, 500, 50 -/

namespace providers

/-- C9: the canonical model built from the `j`-th visited model of a provider
carries that model's four cost rates unchanged: `CostPer1MIn = Cost.Input`,
`CostPer1MOut = Cost.Output`, `CostPer1MInCached = Cost.CacheRead` and
`CostPer1MOutCached = Cost.CacheWrite`. -/
theorem cost_fields_are_copied (prov : Provider) (j : Nat) (e : String × Model)
    (hj : prov.Models[j]? = some e) :
    ∃ cm, (convertProvider prov).Models[j]? = some cm ∧
      cm.CostPer1MIn = e.2.Cost.Input ∧ cm.CostPer1MOut = e.2.Cost.Output ∧
      cm.CostPer1MInCached = e.2.Cost.CacheRead ∧
      cm.CostPer1MOutCached = e.2.Cost.CacheWrite := by
  refine ⟨convertModel e.2, ?_, rfl, rfl, rfl, rfl⟩
  rw [convertProvider_Models, List.getElem?_map, hj]
  rfl

/-- C9, at `pricedProvider`: the cost 1.5, 2.0, 0.1, 0.2 arrives as
1.5, 2.0, 0.1, 0.2. -/
theorem cost_fields_are_copied_witness :
    ∃ cm, (convertProvider pricedProvider).Models[1]? = some cm ∧
      cm.CostPer1MIn = Float64.oneAndHalf ∧ cm.CostPer1MOut = Float64.two ∧
      cm.CostPer1MInCached = Float64.tenth ∧ cm.CostPer1MOutCached = Float64.fifth :=
  cost_fields_are_copied pricedProvider 1 ("priced", pricedModel) rfl

/-- C10: a provider whose models are, in some order, three models of context
100, 500 and 50 gets the ID of the model of context 500 as large default and
the ID of the model of context 50 as small default, whichever of the six
orders its models are visited in. -/
theorem contexts_100_500_50 (data : GoMap Provider) (i : Nat) (entry : String × Provider)
    (ea eb ec : String × Model) (hi : data[i]? = some entry)
    (ha : ea.2.Limit.Context = 100) (hb : eb.2.Limit.Context = 500)
    (hc : ec.2.Limit.Context = 50) (horder : entry.2.Models.Perm [ea, eb, ec]) :
    ∃ cp, (normalize data)[i]? = some cp ∧
      cp.DefaultLargeModelID = eb.2.ID ∧ cp.DefaultSmallModelID = ec.2.ID := by
  refine ⟨convertProvider entry.2, by rw [normalize_getElem?, hi]; rfl, ?_, ?_⟩
  · have hbmem : eb ∈ entry.2.Models := horder.mem_iff.mpr (by simp)
    obtain ⟨e, he, hid, hmax⟩ := convertProvider_large_max entry.2 ⟨eb, hbmem, by omega⟩
    have h500 := hmax eb hbmem
    have hmem : e ∈ [ea, eb, ec] := horder.mem_iff.mp he
    simp only [List.mem_cons, List.mem_singleton, List.not_mem_nil, or_false] at hmem
    rcases hmem with rfl | rfl | rfl
    · omega
    · exact hid
    · omega
  · have hne : entry.2.Models ≠ [] := by
      intro h
      rw [h] at horder
      exact absurd horder.length_eq (by simp)
    have hs : ∀ x ∈ entry.2.Models, x.2.Limit.Context ≠ -1 := by
      intro x hx
      have hmem : x ∈ [ea, eb, ec] := horder.mem_iff.mp hx
      simp only [List.mem_cons, List.mem_singleton, List.not_mem_nil, or_false] at hmem
      rcases hmem with rfl | rfl | rfl <;> omega
    have hcmem : ec ∈ entry.2.Models := horder.mem_iff.mpr (by simp)
    obtain ⟨e, he, hid, hmin⟩ := convertProvider_small_min entry.2 hne hs
    have h50 := hmin ec hcmem
    have hmem : e ∈ [ea, eb, ec] := horder.mem_iff.mp he
    simp only [List.mem_cons, List.mem_singleton, List.not_mem_nil, or_false] at hmem
    rcases hmem with rfl | rfl | rfl
    · omega
    · omega
    · exact hid

/-- C10, at the visiting order 50, 100, 500. -/
theorem contexts_100_500_50_witness :
    ∃ cp, (normalize [("p", Provider.ofModels "p" [m50, m100, m500])])[0]? = some cp ∧
      cp.DefaultLargeModelID = "m500" ∧ cp.DefaultSmallModelID = "m50" :=
  contexts_100_500_50 _ 0 ("p", Provider.ofModels "p" [m50, m100, m500]) m100 m500 m50
    rfl rfl rfl rfl
    (List.Perm.trans (List.Perm.swap _ _ _) (List.Perm.cons _ (List.Perm.swap _ _ _)))

/-- The six visiting orders of `m100`, `m500`, `m50`, each evaluated: the
defaults are `m500` and `m50` in all of them. -/
theorem sixOrders_defaults :
    sixOrders.Nodup ∧ sixOrders.length = 6 ∧
    ∀ ms ∈ sixOrders, ms.Perm [m100, m500, m50] ∧
      (summary (convertProvider (Provider.ofModels "p" ms))).1 = "m500" ∧
      (summary (convertProvider (Provider.ofModels "p" ms))).2.1 = "m50" := by
  decide

end providers

/-! ## Which of several extremal models is kept -/

namespace providers

/-- Once the running maximum is positive, `largeModel` is a visited model of
that context, and every model visited before it has a strictly smaller one. -/
theorem modelLoop_large_first (ms : GoMap Model) (hpos : 0 < (modelLoop ms).maxCtx) :
    ∃ pre e post, ms = pre ++ e :: post ∧
      (modelLoop ms).largeModel = convertModel e.2 ∧
      e.2.Limit.Context = (modelLoop ms).maxCtx ∧
      ∀ y ∈ pre, y.2.Limit.Context < e.2.Limit.Context := by
  induction ms using List.reverseRecOn with
  | nil => exact absurd hpos (by decide)
  | append_singleton ms e ih =>
    rw [modelLoop_concat, loopBody_maxCtx] at hpos
    rw [modelLoop_concat, loopBody_maxCtx, loopBody_largeModel]
    by_cases hgt : e.2.Limit.Context > (modelLoop ms).maxCtx
    · simp only [hgt, if_true]
      refine ⟨ms, e, [], rfl, rfl, rfl, ?_⟩
      intro y hy
      exact lt_of_le_of_lt ((modelLoop_large ms).1 y hy) hgt
    · simp only [hgt, if_false] at hpos ⊢
      obtain ⟨pre, e0, post, hms, hl, hc, hfirst⟩ := ih hpos
      refine ⟨pre, e0, post ++ [e], ?_, hl, hc, hfirst⟩
      rw [hms]
      simp

/-- With at least one model and no context equal to `-1`, `smallModel` is a
visited model whose context is `minCtx`, and every model visited before it has
a strictly greater one. -/
theorem modelLoop_small_first (ms : GoMap Model) (hne : ms ≠ [])
    (hs : ∀ e ∈ ms, e.2.Limit.Context ≠ -1) :
    ∃ pre e post, ms = pre ++ e :: post ∧
      (modelLoop ms).smallModel = convertModel e.2 ∧
      (modelLoop ms).minCtx = e.2.Limit.Context ∧
      ∀ y ∈ pre, e.2.Limit.Context < y.2.Limit.Context := by
  induction ms using List.reverseRecOn with
  | nil => exact absurd rfl hne
  | append_singleton ms e ih =>
    have hs1 : ∀ x ∈ ms, x.2.Limit.Context ≠ -1 := fun x hx => hs x (by simp [hx])
    rw [modelLoop_concat, loopBody_minCtx, loopBody_smallModel]
    by_cases hc : (modelLoop ms).minCtx = -1 ∨ e.2.Limit.Context < (modelLoop ms).minCtx
    · simp only [hc, if_true]
      refine ⟨ms, e, [], rfl, rfl, rfl, ?_⟩
      intro y hy
      rcases hc with h1 | hlt
      · rcases modelLoop_small ms with ⟨hnil, _, _⟩ | ⟨x, hx, _, hm⟩
        · rw [hnil] at hy; exact absurd hy (List.not_mem_nil y)
        · exact absurd (hm ▸ h1) (hs1 x hx)
      · exact lt_of_lt_of_le hlt (modelLoop_minCtx_le ms hs1 y hy)
    · simp only [hc, if_false]
      have hne1 : ms ≠ [] := by
        intro hnil
        apply hc
        left
        rw [hnil]
        rfl
      obtain ⟨pre, e0, post, hms, hl, hm, hfirst⟩ := ih hne1 hs1
      refine ⟨pre, e0, post ++ [e], ?_, hl, hm, hfirst⟩
      rw [hms]
      simp

/-- Without a positive context the large default stays empty. -/
theorem convertProvider_large_empty (prov : Provider)
    (hnone : ∀ e ∈ prov.Models, e.2.Limit.Context ≤ 0) :
    (convertProvider prov).DefaultLargeModelID = "" := by
  rw [convertProvider_large]
  rcases (modelLoop_large prov.Models).2 with ⟨_, hz⟩ | ⟨hpos, e, he, _, hc⟩
  · rw [hz]; rfl
  · have := hnone e he
    omega

/-- The fields a canonical provider takes straight from the upstream one. -/
theorem convertProvider_header (prov : Provider) :
    (convertProvider prov).ID = prov.ID ∧ (convertProvider prov).Name = prov.Name ∧
    (convertProvider prov).APIEndpoint = prov.API ∧ (convertProvider prov).Type_ = prov.ID := by
  unfold convertProvider
  simp only []
  split_ifs <;> exact ⟨rfl, rfl, rfl, rfl⟩

end providers

/-! ## Claims C11 to C13: field mapping, and the keys that are never read -/

namespace providers

theorem modelLoop_eraseKeys (ms : GoMap Model) :
    modelLoop (ms.map (fun e => ("", e.2))) = modelLoop ms := by
  unfold modelLoop
  rw [List.foldl_map]
  rfl

theorem convertProvider_eraseModelKeys (prov : Provider) :
    convertProvider (eraseModelKeys prov) = convertProvider prov := by
  unfold convertProvider eraseModelKeys
  simp only [modelLoop_eraseKeys]

theorem normalize_eraseKeys (data : GoMap Provider) :
    normalize (eraseKeys data) = normalize data := by
  rw [normalize_eq_map, normalize_eq_map, eraseKeys, List.map_map]
  apply List.map_congr_left
  intro e _
  exact convertProvider_eraseModelKeys e.2

/-- C11: the `i`-th canonical provider of the output is built from the value
of the `i`-th visited entry: its `ID` is the `id` field, its `Name` the `name`
field, its `APIEndpoint` the `api` field and its `Type` the same `id` field. -/
theorem provider_header_is_copied (data : GoMap Provider) (i : Nat)
    (entry : String × Provider) (hi : data[i]? = some entry) :
    ∃ cp, (normalize data)[i]? = some cp ∧
      cp.ID = entry.2.ID ∧ cp.Name = entry.2.Name ∧
      cp.APIEndpoint = entry.2.API ∧ cp.Type_ = entry.2.ID :=
  ⟨convertProvider entry.2, by rw [normalize_getElem?, hi]; rfl,
    convertProvider_header entry.2⟩

/-- C11, at a document whose second entry is `namedProvider` under the key
`other`. -/
theorem provider_header_is_copied_witness :
    ∃ cp, (normalize [("p", tieProvider), ("other", namedProvider)])[1]? = some cp ∧
      cp.ID = "acme" ∧ cp.Name = "Acme" ∧
      cp.APIEndpoint = "https://api.acme.test/v1" ∧ cp.Type_ = "acme" :=
  provider_header_is_copied [("p", tieProvider), ("other", namedProvider)] 1
    ("other", namedProvider) rfl

/-- C12: a canonical provider has as many models as the upstream provider's
mapping, and its `j`-th model is built from the `j`-th visited model: `ID`,
`Name`, `ContextWindow = limit.context`, `DefaultMaxTokens = limit.output`,
`CanReason = reasoning`, `SupportsImages = attachment`, and
`HasReasoningEffort = false`. -/
theorem models_are_converted_in_order (data : GoMap Provider) (i : Nat)
    (entry : String × Provider) (hi : data[i]? = some entry) :
    ∃ cp, (normalize data)[i]? = some cp ∧
      cp.Models.length = entry.2.Models.length ∧
      ∀ (j : Nat) (e : String × Model), entry.2.Models[j]? = some e →
        ∃ cm : catwalk.Model, cp.Models[j]? = some cm ∧
          cm.ID = e.2.ID ∧ cm.Name = e.2.Name ∧
          cm.ContextWindow = e.2.Limit.Context ∧ cm.DefaultMaxTokens = e.2.Limit.Output ∧
          cm.CanReason = e.2.Reasoning ∧ cm.SupportsImages = e.2.Attachment ∧
          cm.HasReasoningEffort = false := by
  refine ⟨convertProvider entry.2, by rw [normalize_getElem?, hi]; rfl, ?_, ?_⟩
  · rw [convertProvider_Models, List.length_map]
  · intro j e hj
    refine ⟨convertModel e.2, ?_, rfl, rfl, rfl, rfl, rfl, rfl, rfl⟩
    rw [convertProvider_Models, List.getElem?_map, hj]
    rfl

/-- C12, at `namedProvider`: two models, the first of them `richModel`. -/
theorem models_are_converted_in_order_witness :
    ∃ cp, (normalize [("acme", namedProvider)])[0]? = some cp ∧
      cp.Models.length = 2 ∧
      ∃ cm, cp.Models[0]? = some cm ∧
        cm.ID = "acme-1" ∧ cm.Name = "Acme One" ∧
        cm.ContextWindow = 200000 ∧ cm.DefaultMaxTokens = 8192 ∧
        cm.CanReason = true ∧ cm.SupportsImages = true ∧
        cm.HasReasoningEffort = false :=
  let ⟨cp, hcp, hlen, hmodels⟩ :=
    models_are_converted_in_order [("acme", namedProvider)] 0 ("acme", namedProvider) rfl
  ⟨cp, hcp, hlen, hmodels 0 ("first", richModel) rfl⟩

/-- C13: two decoded documents that list the same provider values in the same
order, with the same model values in the same order, and differ only in their
provider keys and model keys, yield the same canonical provider sequence. -/
theorem keys_do_not_matter (data₁ data₂ : GoMap Provider)
    (hsame : eraseKeys data₁ = eraseKeys data₂) :
    normalize data₁ = normalize data₂ := by
  rw [← normalize_eraseKeys data₁, ← normalize_eraseKeys data₂, hsame]

/-- C13, at `namedProvider` under the key `x` and the same provider with
other model keys under the key `acme`. -/
theorem keys_do_not_matter_witness :
    eraseKeys [("x", namedProvider)] = eraseKeys [("acme", rekeyedProvider)] ∧
    normalize [("x", namedProvider)] = normalize [("acme", rekeyedProvider)] :=
  ⟨by decide, keys_do_not_matter _ _ (by decide)⟩

end providers

/-! ## Claims C14 to C16: ties, and a provider without a positive context -/

namespace providers

/-- C14: in every canonical provider the normalizer produces, in any visiting
order, for which a largest-context model was found (`DefaultLargeModelID` is
non-empty, or some model has a context window greater than zero),
`DefaultLargeModelID` is the ID of the first model in visiting order whose
context window is the maximum over the provider's models: every model is at
most as large and every earlier model is strictly smaller, so a later model of
equal context never replaces it. -/
theorem large_default_is_first_maximal (data : GoMap Provider) (cp : catwalk.Provider)
    (hcp : cp ∈ normalize data)
    (hfound : cp.DefaultLargeModelID ≠ "" ∨ ∃ cm ∈ cp.Models, 0 < cm.ContextWindow) :
    ∃ pre cm post, cp.Models = pre ++ cm :: post ∧
      cp.DefaultLargeModelID = cm.ID ∧
      (∀ x ∈ cp.Models, x.ContextWindow ≤ cm.ContextWindow) ∧
      ∀ y ∈ pre, y.ContextWindow < cm.ContextWindow := by
  obtain ⟨entry, _, rfl⟩ := (mem_normalize data cp).mp hcp
  have hpos : 0 < (modelLoop entry.2.Models).maxCtx := by
    rcases hfound with hne | ⟨cm, hcm, hcmpos⟩
    · rw [convertProvider_large] at hne
      rcases (modelLoop_large entry.2.Models).2 with ⟨_, hz⟩ | ⟨h, _⟩
      · rw [hz] at hne; exact absurd rfl hne
      · exact h
    · obtain ⟨e0, he0, rfl⟩ := (mem_convertProvider_Models entry.2 cm).mp hcm
      exact lt_of_lt_of_le hcmpos ((modelLoop_large entry.2.Models).1 e0 he0)
  obtain ⟨pre, e, post, hms, hl, hc, hfirst⟩ := modelLoop_large_first entry.2.Models hpos
  refine ⟨pre.map (fun x => convertModel x.2), convertModel e.2,
    post.map (fun x => convertModel x.2), ?_, ?_, ?_, ?_⟩
  · rw [convertProvider_Models, hms]
    simp
  · rw [convertProvider_large, hl]
  · intro x hx
    obtain ⟨ex, hex, rfl⟩ := (mem_convertProvider_Models entry.2 x).mp hx
    have := (modelLoop_large entry.2.Models).1 ex hex
    show ex.2.Limit.Context ≤ e.2.Limit.Context
    omega
  · intro y hy
    obtain ⟨ey, hey, rfl⟩ := List.mem_map.mp hy
    exact hfirst ey hey

/-- C14, at `tieData`: of the models `a` (8), `b` (32), `c` (32) the large
default is `b`, with only `a` before it. -/
theorem large_default_is_first_maximal_witness :
    convertProvider tieProvider ∈ normalize tieData ∧
    (convertProvider tieProvider).DefaultLargeModelID = "b" ∧
    ∃ pre cm post, (convertProvider tieProvider).Models = pre ++ cm :: post ∧
      (convertProvider tieProvider).DefaultLargeModelID = cm.ID ∧
      (∀ x ∈ (convertProvider tieProvider).Models, x.ContextWindow ≤ cm.ContextWindow) ∧
      ∀ y ∈ pre, y.ContextWindow < cm.ContextWindow :=
  ⟨by decide, by decide,
    large_default_is_first_maximal tieData _ (by decide) (Or.inl (by decide))⟩

/-- C15: in every canonical provider the normalizer produces, in any visiting
order, that has at least one model and only non-negative context windows,
`DefaultSmallModelID` is the ID of the first model in visiting order whose
context window is the minimum over the provider's models: every model is at
least as large and every earlier model is strictly larger, so a later model of
equal context never replaces it.  The first visited model always becomes the
initial minimum. -/
theorem small_default_is_first_minimal (data : GoMap Provider) (cp : catwalk.Provider)
    (hcp : cp ∈ normalize data) (hne : cp.Models ≠ [])
    (hnonneg : ∀ cm ∈ cp.Models, 0 ≤ cm.ContextWindow) :
    (∃ pre cm post, cp.Models = pre ++ cm :: post ∧
      cp.DefaultSmallModelID = cm.ID ∧
      (∀ x ∈ cp.Models, cm.ContextWindow ≤ x.ContextWindow) ∧
      ∀ y ∈ pre, cm.ContextWindow < y.ContextWindow) ∧
    ∀ first : String × Model,
      (modelLoop [first]).smallModel = convertModel first.2 ∧
      (modelLoop [first]).minCtx = first.2.Limit.Context := by
  obtain ⟨entry, _, rfl⟩ := (mem_normalize data cp).mp hcp
  have hne1 : entry.2.Models ≠ [] := by
    intro h
    apply hne
    rw [convertProvider_Models, h]
    rfl
  have hs : ∀ e ∈ entry.2.Models, e.2.Limit.Context ≠ -1 := by
    intro e he
    have := hnonneg (convertModel e.2) ((mem_convertProvider_Models _ _).mpr ⟨e, he, rfl⟩)
    have h0 : 0 ≤ e.2.Limit.Context := this
    omega
  obtain ⟨pre, e, post, hms, hl, hm, hfirst⟩ := modelLoop_small_first entry.2.Models hne1 hs
  refine ⟨⟨pre.map (fun x => convertModel x.2), convertModel e.2,
    post.map (fun x => convertModel x.2), ?_, ?_, ?_, ?_⟩, ?_⟩
  · rw [convertProvider_Models, hms]
    simp
  · rw [convertProvider_small, hl]
  · intro x hx
    obtain ⟨ex, hex, rfl⟩ := (mem_convertProvider_Models entry.2 x).mp hx
    have := modelLoop_minCtx_le entry.2.Models hs ex hex
    show e.2.Limit.Context ≤ ex.2.Limit.Context
    omega
  · intro y hy
    obtain ⟨ey, hey, rfl⟩ := List.mem_map.mp hy
    exact hfirst ey hey
  · intro first
    have h : modelLoop [first] = loopBody LoopState.init first := rfl
    rw [h, loopBody_smallModel, loopBody_minCtx]
    simp [LoopState.init]

/-- C15, at `smallTieProvider`: of the models `a` (16), `b` (4), `c` (4) the
small default is `b`, with only `a` before it. -/
theorem small_default_is_first_minimal_witness :
    (convertProvider smallTieProvider).DefaultSmallModelID = "b" ∧
    (∃ pre cm post, (convertProvider smallTieProvider).Models = pre ++ cm :: post ∧
      (convertProvider smallTieProvider).DefaultSmallModelID = cm.ID ∧
      (∀ x ∈ (convertProvider smallTieProvider).Models,
        cm.ContextWindow ≤ x.ContextWindow) ∧
      ∀ y ∈ pre, cm.ContextWindow < y.ContextWindow) :=
  ⟨by decide,
    (small_default_is_first_minimal [("s", smallTieProvider)] _ (by decide) (by decide)
      (by decide)).1⟩

/-- C16: a provider none of whose models has a context window greater than
zero gets an empty `DefaultLargeModelID`. -/
theorem no_positive_context_no_large_default (data : GoMap Provider) (i : Nat)
    (entry : String × Provider) (hi : data[i]? = some entry)
    (hnone : ∀ e ∈ entry.2.Models, e.2.Limit.Context ≤ 0) :
    ∃ cp, (normalize data)[i]? = some cp ∧ cp.DefaultLargeModelID = "" :=
  ⟨convertProvider entry.2, by rw [normalize_getElem?, hi]; rfl,
    convertProvider_large_empty entry.2 hnone⟩

/-- C16, at `allZeroProvider`, whose two models both have context 0. -/
theorem no_positive_context_no_large_default_witness :
    allZeroProvider.Models ≠ [] ∧
    ∃ cp, (normalize [("z", allZeroProvider)])[0]? = some cp ∧
      cp.DefaultLargeModelID = "" :=
  ⟨by decide,
    no_positive_context_no_large_default [("z", allZeroProvider)] 0 ("z", allZeroProvider)
      rfl (by decide)⟩

end providers

/-! ## Claims C17 and C18: visiting order, and independence of providers -/

namespace providers

/-- With pairwise distinct contexts, two visiting orders of the same models
keep the same large model. -/
theorem convertProvider_large_perm (p q : Provider) (hperm : p.Models.Perm q.Models)
    (hdistinct : (p.Models.map (fun e => e.2.Limit.Context)).Nodup) :
    (convertProvider p).DefaultLargeModelID = (convertProvider q).DefaultLargeModelID := by
  by_cases hpos : ∃ e ∈ p.Models, 0 < e.2.Limit.Context
  · have hposq : ∃ e ∈ q.Models, 0 < e.2.Limit.Context := by
      obtain ⟨e, he, h⟩ := hpos
      exact ⟨e, hperm.mem_iff.mp he, h⟩
    obtain ⟨e1, he1, hid1, hmax1⟩ := convertProvider_large_max p hpos
    obtain ⟨e2, he2, hid2, hmax2⟩ := convertProvider_large_max q hposq
    have he2p : e2 ∈ p.Models := hperm.mem_iff.mpr he2
    have h12 := hmax2 e1 (hperm.mem_iff.mp he1)
    have h21 := hmax1 e2 he2p
    have heq : e1 = e2 := List.inj_on_of_nodup_map hdistinct he1 he2p (le_antisymm h12 h21)
    rw [hid1, hid2, heq]
  · have hnone : ∀ e ∈ p.Models, e.2.Limit.Context ≤ 0 := by
      intro e he
      by_contra h
      exact hpos ⟨e, he, by omega⟩
    have hnoneq : ∀ e ∈ q.Models, e.2.Limit.Context ≤ 0 := fun e he =>
      hnone e (hperm.mem_iff.mpr he)
    rw [convertProvider_large_empty p hnone, convertProvider_large_empty q hnoneq]

/-- With pairwise distinct contexts, none of them `-1`, two visiting orders of
the same models keep the same small model. -/
theorem convertProvider_small_perm (p q : Provider) (hperm : p.Models.Perm q.Models)
    (hdistinct : (p.Models.map (fun e => e.2.Limit.Context)).Nodup)
    (hs : ∀ e ∈ p.Models, e.2.Limit.Context ≠ -1) :
    (convertProvider p).DefaultSmallModelID = (convertProvider q).DefaultSmallModelID := by
  by_cases hnil : p.Models = []
  · have hnilq : q.Models = [] := by
      rw [hnil] at hperm
      exact hperm.symm.eq_nil
    rw [convertProvider_small, convertProvider_small, hnil, hnilq]
  · have hnilq : q.Models ≠ [] := by
      intro h
      rw [h] at hperm
      exact hnil hperm.eq_nil
    have hsq : ∀ e ∈ q.Models, e.2.Limit.Context ≠ -1 := fun e he =>
      hs e (hperm.mem_iff.mpr he)
    obtain ⟨e1, he1, hid1, hmin1⟩ := convertProvider_small_min p hnil hs
    obtain ⟨e2, he2, hid2, hmin2⟩ := convertProvider_small_min q hnilq hsq
    have he2p : e2 ∈ p.Models := hperm.mem_iff.mpr he2
    have h21 := hmin2 e1 (hperm.mem_iff.mp he1)
    have h12 := hmin1 e2 he2p
    have heq : e1 = e2 := List.inj_on_of_nodup_map hdistinct he1 he2p (le_antisymm h12 h21)
    rw [hid1, hid2, heq]

/-- C17: two providers holding the same models, visited in any two orders,
get the same `DefaultLargeModelID` and the same `DefaultSmallModelID` when the
models' context windows are pairwise distinct and non-negative. -/
theorem defaults_do_not_depend_on_order (data₁ data₂ : GoMap Provider) (i : Nat)
    (entry₁ entry₂ : String × Provider)
    (h₁ : data₁[i]? = some entry₁) (h₂ : data₂[i]? = some entry₂)
    (hperm : entry₁.2.Models.Perm entry₂.2.Models)
    (hdistinct : (entry₁.2.Models.map (fun e => e.2.Limit.Context)).Nodup)
    (hnonneg : ∀ e ∈ entry₁.2.Models, 0 ≤ e.2.Limit.Context) :
    ∃ cp₁ cp₂, (normalize data₁)[i]? = some cp₁ ∧ (normalize data₂)[i]? = some cp₂ ∧
      cp₁.DefaultLargeModelID = cp₂.DefaultLargeModelID ∧
      cp₁.DefaultSmallModelID = cp₂.DefaultSmallModelID := by
  refine ⟨convertProvider entry₁.2, convertProvider entry₂.2,
    by rw [normalize_getElem?, h₁]; rfl, by rw [normalize_getElem?, h₂]; rfl,
    convertProvider_large_perm _ _ hperm hdistinct,
    convertProvider_small_perm _ _ hperm hdistinct ?_⟩
  intro e he
  have := hnonneg e he
  omega

/-- C17, at the orders 100, 500, 50 and 50, 100, 500 of the same three
models. -/
theorem defaults_do_not_depend_on_order_witness :
    ∃ cp₁ cp₂,
      (normalize [("p", Provider.ofModels "p" [m100, m500, m50])])[0]? = some cp₁ ∧
      (normalize [("p", Provider.ofModels "p" [m50, m100, m500])])[0]? = some cp₂ ∧
      cp₁.DefaultLargeModelID = cp₂.DefaultLargeModelID ∧
      cp₁.DefaultSmallModelID = cp₂.DefaultSmallModelID :=
  defaults_do_not_depend_on_order _ _ 0
    ("p", Provider.ofModels "p" [m100, m500, m50])
    ("p", Provider.ofModels "p" [m50, m100, m500]) rfl rfl
    (by decide) (by decide) (by decide)

/-- C18: the normalizer works entry by entry.  The output for a concatenation
of entry lists is the concatenation of the outputs, and the canonical provider
at each position is the one the normalizer builds from that entry alone, so
the running maximum and minimum of one provider never reach another. -/
theorem providers_are_independent (xs ys : GoMap Provider) :
    normalize (xs ++ ys) = normalize xs ++ normalize ys ∧
    ∀ (i : Nat) (entry : String × Provider), xs[i]? = some entry →
      (normalize xs)[i]? = (normalize [entry])[0]? := by
  refine ⟨by rw [normalize_eq_map, normalize_eq_map, normalize_eq_map, List.map_append], ?_⟩
  intro i entry hi
  rw [normalize_getElem?, hi]
  rfl

end providers
